import Mathlib

/-!
A shallow embedding of the multiplayer chess server, src/backend/main.go of
the repository rohit746/multiplayer-chess, together with proofs about its
session registry, color assignment, turn enforcement, move application,
status broadcasting, lock discipline and disconnect cleanup.

The server keeps a global map `games` from ksuid strings to sessions, each
holding a notnil/chess game value and a list of players (connection handle
plus color).  Every mutating action (create, join, move, disconnect cleanup)
runs its check-and-mutate body inside one `gamesMutex` critical section, so
the state transition of each action is modelled as one atomic step.  The
rules engine (the notnil/chess library) is an external collaborator and is
modelled as an abstract interface, following section 6 of the design spec.
-/

namespace MultiplayerChess

/-- Piece color, after chess.Color of the notnil/chess library used by
main.go (constants NoColor, White, Black). -/
inductive Color where
  | noColor
  | white
  | black
deriving DecidableEq

/-- String form of a color, after chess.Color.String of notnil/chess,
which returns the FEN letter of the color. -/
def colorString : Color → String
  | Color.white => "w"
  | Color.black => "b"
  | Color.noColor => "-"

/-- toggleColor from main.go lines 230 to 235: White maps to Black and any
other color maps to White. -/
def toggleColor (c : Color) : Color :=
  if c = Color.white then Color.black else Color.white

/-- randomColor from main.go lines 223 to 228; the test rand.Intn(2) == 0
is modelled by the Boolean argument. -/
def randomColor (r : Bool) : Color :=
  if r then Color.white else Color.black

/-- Game outcome, after chess.Outcome of notnil/chess: NoOutcome, WhiteWon,
BlackWon, Draw. -/
inductive Outcome where
  | noOutcome
  | whiteWon
  | blackWon
  | draw
deriving DecidableEq

/-- Terminal classification method, after chess.Method of notnil/chess;
main.go lines 178 to 184 compare against Checkmate, Stalemate and
InsufficientMaterial. -/
inductive Method where
  | noMethod
  | checkmate
  | resignation
  | drawOffer
  | stalemate
  | threefoldRepetition
  | fivefoldRepetition
  | fiftyMoveRule
  | seventyFiveMoveRule
  | insufficientMaterial
deriving DecidableEq

/-- The Rules Engine Adapter interface of section 6 of the spec, exactly the
five operations main.go uses on the notnil/chess library: chess.NewGame
(line 81), Position().Turn() (line 134), MoveStr (line 144), Outcome and
Method (lines 177 to 182), Position().String() (line 189). -/
structure Engine (Pos : Type) where
  newGame : Pos
  turn : Pos → Color
  moveStr : Pos → String → Except String Pos
  outcome : Pos → Outcome
  method : Pos → Method
  fen : Pos → String

/-- Player from main.go lines 23 to 26: a connection handle and a color.
Connection handles are compared by identity, modelled as a natural number. -/
structure Player where
  conn : Nat
  color : Color
deriving DecidableEq

/-- Game from main.go lines 28 to 32: the engine state and the ordered
list of players (the mutex field is modelled by the atomicity of steps). -/
structure Game (Pos : Type) where
  game : Pos
  players : List Player
deriving DecidableEq

/-- The global registry map, games, from main.go line 34: session id to
session, absent keys mapping to none, matching Go map semantics. -/
abbrev ServerState (Pos : Type) := String → Option (Game Pos)

/-- The initial, empty registry. -/
def emptyState {Pos : Type} : ServerState Pos := fun _ => none

/-- Store a session under a key, replacing any existing binding, after the
Go map assignment games[gameID] = game. -/
def setGame {Pos : Type} (st : ServerState Pos) (gid : String) (g : Game Pos) :
    ServerState Pos :=
  fun k => if k = gid then some g else st k

/-- The JSON object written back to the requesting connection, after the
WriteJSON calls of main.go: created (line 89), joined (line 112), an error
object (lines 101, 120, 135, 146, 159), or the broadcast game state that a
successful move produces (lines 187 to 190). -/
inductive Reply where
  | created (gid color : String)
  | joined (gid color : String)
  | err (msg : String)
  | broadcast (status fen : String)
deriving DecidableEq

/-- getPlayerColor from main.go lines 237 to 244: the color of the first
player whose connection matches, NoColor when none matches. -/
def getPlayerColor {Pos : Type} (ws : Nat) (g : Game Pos) : Color :=
  match g.players.find? (fun p => p.conn == ws) with
  | some p => p.color
  | none => Color.noColor

/-- Color of the first player of a session, after the unguarded access
game.Players[0].Color at main.go line 108 (Go would panic on an empty list;
registered sessions always hold at least one player, see goodPlayers). -/
def firstColor {Pos : Type} (g : Game Pos) : Color :=
  match g.players with
  | [] => Color.noColor
  | p :: _ => p.color

/-- The create action, main.go lines 76 to 93: a fresh session with one
player of a random color is stored under the new ksuid; the ksuid value and
the random draw are inputs of the model. -/
def handleCreate {Pos : Type} (eng : Engine Pos) (st : ServerState Pos)
    (ws : Nat) (gid : String) (r : Bool) : ServerState Pos × Reply :=
  let c := randomColor r
  (setGame st gid ⟨eng.newGame, [⟨ws, c⟩]⟩, Reply.created gid (colorString c))

/-- The join action, main.go lines 94 to 125: unknown id answers game not
found; a session with two or more players answers game full and is left
unchanged; otherwise a player with the complement of the first player's
color is appended. -/
def handleJoin {Pos : Type} (st : ServerState Pos) (ws : Nat) (gid : String) :
    ServerState Pos × Reply :=
  match st gid with
  | none => (st, Reply.err "game not found")
  | some g =>
    if 2 ≤ g.players.length then
      (st, Reply.err "game full")
    else
      let c := toggleColor (firstColor g)
      (setGame st gid { g with players := g.players ++ [⟨ws, c⟩] },
       Reply.joined gid (colorString c))

/-- The status string of the broadcast snapshot, main.go lines 176 to 185:
it starts as ongoing and is overwritten only for the methods Checkmate,
Stalemate and InsufficientMaterial; the if chain has no final else, so any
other method leaves it at ongoing even when the outcome is terminal. -/
def statusOf {Pos : Type} (eng : Engine Pos) (p : Pos) : String :=
  if eng.outcome p ≠ Outcome.noOutcome then
    if eng.method p = Method.checkmate then "checkmate"
    else if eng.method p = Method.stalemate then "stalemate"
    else if eng.method p = Method.insufficientMaterial then "draw"
    else "ongoing"
  else "ongoing"

/-- The move action, main.go lines 126 to 164: unknown id answers game not
found; a connection whose resolved color differs from the side to move is
answered not your turn with the session untouched; otherwise the engine is
invoked once, a rejection is answered with the engine's reason string and
leaves the session untouched, and an accepted move replaces the position
and broadcasts the new snapshot. -/
def handleMove {Pos : Type} (eng : Engine Pos) (st : ServerState Pos)
    (ws : Nat) (gid mv : String) : ServerState Pos × Reply :=
  match st gid with
  | none => (st, Reply.err "game not found")
  | some g =>
    if eng.turn g.game ≠ getPlayerColor ws g then
      (st, Reply.err "not your turn")
    else
      match eng.moveStr g.game mv with
      | Except.error reason => (st, Reply.err reason)
      | Except.ok p2 =>
        (setGame st gid { g with game := p2 },
         Reply.broadcast (statusOf eng p2) (eng.fen p2))

/-- Remove the first player whose connection matches, after the loop with
break in removePlayer, main.go lines 208 to 214. -/
def removeFirstMatch (ws : Nat) : List Player → List Player
  | [] => []
  | p :: ps => if p.conn = ws then ps else p :: removeFirstMatch ws ps

/-- removePlayer from main.go lines 202 to 221: for every session, drop the
first player whose connection matches, then delete the session if its player
list became empty. -/
def removePlayer {Pos : Type} (st : ServerState Pos) (ws : Nat) :
    ServerState Pos :=
  fun gid =>
    match st gid with
    | none => none
    | some g =>
      let ps := removeFirstMatch ws g.players
      if ps.isEmpty then none else some { g with players := ps }

/-- One client request, as dispatched by the read loop of handleConnections
(main.go lines 74 to 167) or the deferred cleanup (line 54). -/
inductive Act where
  | create (ws : Nat) (gid : String) (r : Bool)
  | join (ws : Nat) (gid : String)
  | move (ws : Nat) (gid mv : String)
  | disconnect (ws : Nat)

/-- The registry transition of one action.  Each handler runs its whole
check-and-mutate body inside one gamesMutex critical section in main.go, so
actions are atomic steps of the registry state. -/
def step {Pos : Type} (eng : Engine Pos) (st : ServerState Pos) :
    Act → ServerState Pos
  | Act.create ws gid r => (handleCreate eng st ws gid r).1
  | Act.join ws gid => (handleJoin st ws gid).1
  | Act.move ws gid mv => (handleMove eng st ws gid mv).1
  | Act.disconnect ws => removePlayer st ws

/-- Side condition of a step: a create action carries a fresh identifier,
modelling the collision-free ksuid of main.go line 77 (spec section 4.1:
a fresh collision-free identifier, never fails). -/
def FreshOk {Pos : Type} (st : ServerState Pos) : Act → Prop
  | Act.create _ gid _ => st gid = none
  | _ => True

/-- The registry states reachable from the empty registry by atomic steps. -/
inductive Reachable {Pos : Type} (eng : Engine Pos) : ServerState Pos → Prop
  | init : Reachable eng emptyState
  | next {st : ServerState Pos} {a : Act} :
      Reachable eng st → FreshOk st a → Reachable eng (step eng st a)

/-- Well-formed player list of a registered session: one player of a real
color, or two players whose second color is the toggle of the first. -/
def goodPlayers : List Player → Prop
  | [p] => p.color = Color.white ∨ p.color = Color.black
  | [p, q] => (p.color = Color.white ∨ p.color = Color.black) ∧
      q.color = toggleColor p.color
  | _ => False

/-- Registry invariant: every registered session has a well-formed list. -/
def Inv {Pos : Type} (st : ServerState Pos) : Prop :=
  ∀ gid g, st gid = some g → goodPlayers g.players

theorem toggle_white_or_black (c : Color) :
    toggleColor c = Color.white ∨ toggleColor c = Color.black := by
  unfold toggleColor
  split <;> simp

theorem goodPlayers_length {l : List Player} (h : goodPlayers l) :
    1 ≤ l.length ∧ l.length ≤ 2 := by
  match l with
  | [] => exact absurd h (by simp [goodPlayers])
  | [p] => simp
  | [p, q] => simp
  | p :: q :: r :: t => exact absurd h (by simp [goodPlayers])

theorem inv_empty {Pos : Type} : Inv (@emptyState Pos) := by
  intro gid g hg
  simp [emptyState] at hg

theorem inv_create {Pos : Type} (eng : Engine Pos) {st : ServerState Pos}
    (h : Inv st) (ws : Nat) (gid : String) (r : Bool) :
    Inv (handleCreate eng st ws gid r).1 := by
  intro k g hk
  simp only [handleCreate, setGame] at hk
  by_cases hkg : k = gid
  · rw [if_pos hkg] at hk
    cases hk
    cases r <;> simp [goodPlayers, randomColor]
  · rw [if_neg hkg] at hk
    exact h k g hk

theorem inv_join {Pos : Type} {st : ServerState Pos} (h : Inv st)
    (ws : Nat) (gid : String) : Inv (handleJoin st ws gid).1 := by
  intro k g hk
  simp only [handleJoin] at hk
  split at hk
  · exact h k g hk
  · rename_i g0 hg0
    split at hk
    · exact h k g hk
    · rename_i hfull
      simp only [setGame] at hk
      split at hk
      · cases hk
        have hgood := h gid g0 hg0
        match hp : g0.players, hgood with
        | [p], hgood =>
          simp only [hp]
          simpa [goodPlayers, firstColor, hp] using hgood
        | [p, q], hgood =>
          rw [hp] at hfull
          simp at hfull
      · exact h k g hk

theorem inv_move {Pos : Type} (eng : Engine Pos) {st : ServerState Pos}
    (h : Inv st) (ws : Nat) (gid mv : String) :
    Inv (handleMove eng st ws gid mv).1 := by
  intro k g hk
  simp only [handleMove] at hk
  split at hk
  · exact h k g hk
  · rename_i g0 hg0
    split at hk
    · exact h k g hk
    · split at hk
      · exact h k g hk
      · simp only [setGame] at hk
        split at hk
        · cases hk
          exact h gid g0 hg0
        · exact h k g hk

theorem goodPlayers_removeFirstMatch {l : List Player} (h : goodPlayers l)
    (ws : Nat) (hne : ¬(removeFirstMatch ws l).isEmpty = true) :
    goodPlayers (removeFirstMatch ws l) := by
  match l with
  | [] => exact absurd h (by simp [goodPlayers])
  | [p] =>
    by_cases hp : p.conn = ws
    · simp [removeFirstMatch, hp] at hne
    · simpa [removeFirstMatch, hp] using h
  | [p, q] =>
    obtain ⟨h1, h2⟩ := h
    by_cases hp : p.conn = ws
    · simp only [removeFirstMatch, if_pos hp]
      have := toggle_white_or_black p.color
      rw [← h2] at this
      simpa [goodPlayers] using this
    · by_cases hq : q.conn = ws
      · simpa [removeFirstMatch, hp, hq, goodPlayers] using h1
      · simpa [removeFirstMatch, hp, hq, goodPlayers] using ⟨h1, h2⟩
  | p :: q :: r :: t => exact absurd h (by simp [goodPlayers])

theorem inv_disconnect {Pos : Type} {st : ServerState Pos} (h : Inv st)
    (ws : Nat) : Inv (removePlayer st ws) := by
  intro k g hk
  simp only [removePlayer] at hk
  split at hk
  · exact absurd hk (by simp)
  · rename_i g0 hg0
    split at hk
    · exact absurd hk (by simp)
    · rename_i he
      cases hk
      exact goodPlayers_removeFirstMatch (h k g0 hg0) ws he

theorem inv_step {Pos : Type} (eng : Engine Pos) {st : ServerState Pos}
    (h : Inv st) (a : Act) : Inv (step eng st a) := by
  cases a with
  | create ws gid r => exact inv_create eng h ws gid r
  | join ws gid => exact inv_join h ws gid
  | move ws gid mv => exact inv_move eng h ws gid mv
  | disconnect ws => exact inv_disconnect h ws

theorem reachable_inv {Pos : Type} {eng : Engine Pos} {st : ServerState Pos}
    (h : Reachable eng st) : Inv st := by
  induction h with
  | init => exact inv_empty
  | next _ _ ih => exact inv_step _ ih _

/-- Modelled from the spec: a minimal position type instantiating the Rules
Engine Adapter interface of section 6, used to evaluate the server handlers
on concrete inputs; the real engine, the notnil/chess library, is an
external collaborator outside of src. -/
structure TestPos where
  stm : Color
  out : Outcome
  meth : Method
  tag : Nat
deriving DecidableEq

/-- Modelled from the spec: a concrete instance of the Rules Engine Adapter
interface of section 6.  Per that interface ApplyMove rejects a move only
for legality reasons relative to the position, so a mated or stalemated
position (no legal moves) rejects everything, while a terminally drawn
position that still has legal moves admits accepted moves; the move "draw"
produces a position drawn by the seventy-five-move rule and the move "ok"
is any other legal move. -/
def testEngine : Engine TestPos where
  newGame := ⟨Color.white, Outcome.noOutcome, Method.noMethod, 0⟩
  turn p := p.stm
  moveStr p m :=
    if p.meth = Method.checkmate ∨ p.meth = Method.stalemate then
      Except.error "invalid move"
    else if m = "draw" then
      Except.ok ⟨toggleColor p.stm, Outcome.draw, Method.seventyFiveMoveRule, p.tag + 1⟩
    else if m = "ok" then
      Except.ok ⟨toggleColor p.stm, p.out, p.meth, p.tag + 1⟩
    else Except.error "invalid move"
  outcome p := p.out
  method p := p.meth
  fen _ := "fen"

/-- A concrete reachable state: connection 0 creates game g with color
White, then connection 1 joins with color Black. -/
def st2 : ServerState TestPos :=
  step testEngine (step testEngine emptyState (Act.create 0 "g" true))
    (Act.join 1 "g")

theorem st2_reachable : Reachable testEngine st2 :=
  Reachable.next (Reachable.next Reachable.init rfl) trivial

/-- The session of st2 under the key g: the opening position with one
White player on connection 0 and one Black player on connection 1. -/
def sessionG : Game TestPos :=
  ⟨⟨Color.white, Outcome.noOutcome, Method.noMethod, 0⟩,
    [⟨0, Color.white⟩, ⟨1, Color.black⟩]⟩

theorem st2_at_g : st2 "g" = some sessionG := by decide

theorem handleJoin_full {Pos : Type} {st : ServerState Pos} {gid : String}
    {g : Game Pos} (ws : Nat) (hg : st gid = some g)
    (hfull : 2 ≤ g.players.length) :
    handleJoin st ws gid = (st, Reply.err "game full") := by
  simp only [handleJoin, hg, if_pos hfull]

/-- C1: in every reachable registry state, every session holds at most two
participants; a join on a session that already has two participants is
rejected with the error game full and leaves the whole registry unchanged;
and no action at all (create, join, move, disconnect cleanup) produces a
session with more than two participants.  Concurrent join attempts on the
last free slot are serialized because the join handler's check and append
both run inside the single gamesMutex critical section of main.go lines 96
to 111, which the atomic step relation models. -/
theorem C1_at_most_two_players {Pos : Type} (eng : Engine Pos)
    (st : ServerState Pos) (h : Reachable eng st) :
    (∀ gid g, st gid = some g → g.players.length ≤ 2) ∧
    (∀ ws gid g, st gid = some g → 2 ≤ g.players.length →
      handleJoin st ws gid = (st, Reply.err "game full")) ∧
    (∀ a gid g, step eng st a gid = some g → g.players.length ≤ 2) := by
  have hinv := reachable_inv h
  refine ⟨?_, ?_, ?_⟩
  · intro gid g hg
    exact (goodPlayers_length (hinv gid g hg)).2
  · intro ws gid g hg hfull
    exact handleJoin_full ws hg hfull
  · intro a gid g hg
    exact (goodPlayers_length (inv_step eng hinv a gid g hg)).2

/-- Witness for C1 at the concrete reachable two-player state st2. -/
theorem C1_at_most_two_players_witness :
    (∀ gid g, st2 gid = some g → g.players.length ≤ 2) ∧
    (∀ ws gid g, st2 gid = some g → 2 ≤ g.players.length →
      handleJoin st2 ws gid = (st2, Reply.err "game full")) ∧
    (∀ a gid g, step testEngine st2 a gid = some g →
      g.players.length ≤ 2) :=
  C1_at_most_two_players testEngine st2 st2_reachable

/-- C2: a move on an existing session is accepted, meaning the engine's
verdict can reach the position and a broadcast reply is produced, only when
the color that getPlayerColor resolves for the submitting connection equals
the side to move of the session's position; otherwise the server replies
with the error not your turn and the registry, hence the position, is
exactly unchanged (main.go lines 134 to 142). -/
theorem C2_turn_enforcement {Pos : Type} (eng : Engine Pos)
    (st : ServerState Pos) (ws : Nat) (gid mv : String) (g : Game Pos)
    (hg : st gid = some g) :
    (eng.turn g.game ≠ getPlayerColor ws g →
      handleMove eng st ws gid mv = (st, Reply.err "not your turn")) ∧
    (∀ s f, (handleMove eng st ws gid mv).2 = Reply.broadcast s f →
      eng.turn g.game = getPlayerColor ws g) := by
  constructor
  · intro hne
    simp only [handleMove, hg, if_pos hne]
  · intro s f hb
    by_contra hne
    simp only [handleMove, hg, if_pos hne] at hb
    exact Reply.noConfusion hb

/-- Witness for C2: at st2 the submitting connection 1 holds Black while it
is White's turn, so the session is concrete and the hypothesis is
discharged by computation. -/
theorem C2_turn_enforcement_witness :
    (testEngine.turn sessionG.game ≠ getPlayerColor 1 sessionG →
      handleMove testEngine st2 1 "g" "ok" = (st2, Reply.err "not your turn")) ∧
    (∀ s f, (handleMove testEngine st2 1 "g" "ok").2 = Reply.broadcast s f →
      testEngine.turn sessionG.game = getPlayerColor 1 sessionG) :=
  C2_turn_enforcement testEngine st2 1 "g" "ok" sessionG st2_at_g

/-- C3: with the session found and the turn check passed, a rejection by
the rules engine is answered with the engine's reason string and leaves the
registry, hence the position, exactly unchanged, and an acceptance replaces
the session's position with the result of exactly one engine application to
the prior position with the submitted move, broadcasting the new snapshot
(main.go lines 144 to 156). -/
theorem C3_apply_move_atomic {Pos : Type} (eng : Engine Pos)
    (st : ServerState Pos) (ws : Nat) (gid mv : String) (g : Game Pos)
    (hg : st gid = some g)
    (hturn : eng.turn g.game = getPlayerColor ws g) :
    (∀ reason, eng.moveStr g.game mv = Except.error reason →
      handleMove eng st ws gid mv = (st, Reply.err reason)) ∧
    (∀ p2, eng.moveStr g.game mv = Except.ok p2 →
      handleMove eng st ws gid mv =
        (setGame st gid { g with game := p2 },
         Reply.broadcast (statusOf eng p2) (eng.fen p2))) := by
  constructor
  · intro reason hmv
    simp only [handleMove, hg, hturn, ne_eq, not_true_eq_false, if_false, hmv]
  · intro p2 hmv
    simp only [handleMove, hg, hturn, ne_eq, not_true_eq_false, if_false, hmv]

/-- Witness for C3 at st2 with the concrete move ok submitted by the White
player on connection 0, whose turn it is. -/
theorem C3_apply_move_atomic_witness :
    (∀ reason, testEngine.moveStr sessionG.game "ok" = Except.error reason →
      handleMove testEngine st2 0 "g" "ok" = (st2, Reply.err reason)) ∧
    (∀ p2, testEngine.moveStr sessionG.game "ok" = Except.ok p2 →
      handleMove testEngine st2 0 "g" "ok" =
        (setGame st2 "g" { sessionG with game := p2 },
         Reply.broadcast (statusOf testEngine p2) (testEngine.fen p2))) :=
  C3_apply_move_atomic testEngine st2 0 "g" "ok" sessionG st2_at_g (by decide)

/-- C4: in every reachable registry state, every session with two
participants has a second color equal to the toggle of the first, the two
colors being distinct with the first a real color; a create action stores a
single participant whose color is the random draw, itself always White or
Black; and every step with a fresh identifier leaves the player list of a
surviving session unchanged, appends one new participant to it, or removes
the first participant matching a closed connection, so participant records,
and in particular their colors, are never modified in place (main.go lines
78, 108 to 110, 144, 210). -/
theorem C4_colors_complementary {Pos : Type} (eng : Engine Pos)
    (st : ServerState Pos) (h : Reachable eng st) :
    (∀ gid g p q, st gid = some g → g.players = [p, q] →
      (p.color = Color.white ∨ p.color = Color.black) ∧
      q.color = toggleColor p.color ∧ q.color ≠ p.color) ∧
    (∀ ws gid r,
      (handleCreate eng st ws gid r).1 gid =
        some ⟨eng.newGame, [⟨ws, randomColor r⟩]⟩ ∧
      (randomColor r = Color.white ∨ randomColor r = Color.black)) ∧
    (∀ a, FreshOk st a → ∀ gid g g', st gid = some g →
      step eng st a gid = some g' →
      g'.players = g.players ∨ (∃ p, g'.players = g.players ++ [p]) ∨
      ∃ ws, g'.players = removeFirstMatch ws g.players) := by
  have hinv := reachable_inv h
  refine ⟨?_, ?_, ?_⟩
  · intro gid g p q hg hpq
    have hgood := hinv gid g hg
    rw [hpq] at hgood
    obtain ⟨h1, h2⟩ : (p.color = Color.white ∨ p.color = Color.black) ∧
        q.color = toggleColor p.color := by simpa [goodPlayers] using hgood
    refine ⟨h1, h2, ?_⟩
    rw [h2]
    rcases h1 with h1 | h1 <;> rw [h1] <;> simp [toggleColor]
  · intro ws gid r
    constructor
    · simp [handleCreate, setGame]
    · cases r <;> simp [randomColor]
  · intro a hfresh gid g g' hg hg'
    cases a with
    | create ws gid' r =>
      simp only [step, handleCreate, setGame] at hg'
      by_cases hkg : gid = gid'
      · rw [if_pos hkg] at hg'
        rw [hkg] at hg
        simp only [FreshOk] at hfresh
        rw [hfresh] at hg
        exact absurd hg (by simp)
      · rw [if_neg hkg] at hg'
        rw [hg] at hg'
        cases hg'
        exact Or.inl rfl
    | join ws gid' =>
      simp only [step, handleJoin] at hg'
      split at hg'
      · simp only [hg, Option.some.injEq] at hg'
        subst hg'
        exact Or.inl rfl
      · rename_i g0 hg0
        split at hg'
        · simp only [hg, Option.some.injEq] at hg'
          subst hg'
          exact Or.inl rfl
        · simp only [setGame] at hg'
          split at hg'
          · rename_i hkg
            cases hg'
            rw [hkg, hg0] at hg
            cases hg
            exact Or.inr (Or.inl ⟨_, rfl⟩)
          · simp only [hg, Option.some.injEq] at hg'
            subst hg'
            exact Or.inl rfl
    | move ws gid' mv =>
      simp only [step, handleMove] at hg'
      split at hg'
      · simp only [hg, Option.some.injEq] at hg'
        subst hg'
        exact Or.inl rfl
      · rename_i g0 hg0
        split at hg'
        · simp only [hg, Option.some.injEq] at hg'
          subst hg'
          exact Or.inl rfl
        · split at hg'
          · simp only [hg, Option.some.injEq] at hg'
            subst hg'
            exact Or.inl rfl
          · simp only [setGame] at hg'
            split at hg'
            · rename_i hkg
              cases hg'
              rw [hkg, hg0] at hg
              cases hg
              exact Or.inl rfl
            · rw [hg] at hg'
              cases hg'
              exact Or.inl rfl
    | disconnect ws =>
      simp only [step, removePlayer] at hg'
      rw [hg] at hg'
      simp only at hg'
      split at hg'
      · exact absurd hg' (by simp)
      · cases hg'
        exact Or.inr (Or.inr ⟨ws, rfl⟩)

/-- Witness for C4 at the concrete reachable two-player state st2. -/
theorem C4_colors_complementary_witness :
    (∀ gid g p q, st2 gid = some g → g.players = [p, q] →
      (p.color = Color.white ∨ p.color = Color.black) ∧
      q.color = toggleColor p.color ∧ q.color ≠ p.color) ∧
    (∀ ws gid r,
      (handleCreate testEngine st2 ws gid r).1 gid =
        some ⟨testEngine.newGame, [⟨ws, randomColor r⟩]⟩ ∧
      (randomColor r = Color.white ∨ randomColor r = Color.black)) ∧
    (∀ a, FreshOk st2 a → ∀ gid g g', st2 gid = some g →
      step testEngine st2 a gid = some g' →
      g'.players = g.players ∨ (∃ p, g'.players = g.players ++ [p]) ∨
      ∃ ws, g'.players = removeFirstMatch ws g.players) :=
  C4_colors_complementary testEngine st2 st2_reachable

/-- C10: the join handler never checks whether the joining connection is
already a participant, so the connection that created a session can join it
while the second slot is free: the join succeeds, the session then holds
two participants sharing that connection with complementary colors, and
getPlayerColor resolves the shared connection to the first participant's
color, the creator's (main.go lines 94 to 117 and 237 to 244). -/
theorem C10_self_join {Pos : Type} (eng : Engine Pos) (st : ServerState Pos)
    (ws : Nat) (gid : String) (r : Bool) :
    handleJoin (handleCreate eng st ws gid r).1 ws gid =
      (setGame (handleCreate eng st ws gid r).1 gid
        ⟨eng.newGame, [⟨ws, randomColor r⟩, ⟨ws, toggleColor (randomColor r)⟩]⟩,
       Reply.joined gid (colorString (toggleColor (randomColor r)))) ∧
    (handleJoin (handleCreate eng st ws gid r).1 ws gid).1 gid =
      some ⟨eng.newGame,
        [⟨ws, randomColor r⟩, ⟨ws, toggleColor (randomColor r)⟩]⟩ ∧
    getPlayerColor ws
      (⟨eng.newGame, [⟨ws, randomColor r⟩, ⟨ws, toggleColor (randomColor r)⟩]⟩ :
        Game Pos) = randomColor r ∧
    toggleColor (randomColor r) ≠ randomColor r := by
  have hc : (handleCreate eng st ws gid r).1 gid =
      some ⟨eng.newGame, [⟨ws, randomColor r⟩]⟩ := by
    simp [handleCreate, setGame]
  refine ⟨?_, ?_, ?_, ?_⟩
  · simp [handleJoin, hc, firstColor]
  · simp [handleJoin, hc, firstColor, setGame]
  · simp [getPlayerColor, List.find?]
  · cases r <;> decide

/-- C9: a join or a move whose game id is not registered is answered with
the error game not found and leaves the whole registry, hence every
session, exactly unchanged (main.go lines 118 to 124 and 157 to 163). -/
theorem C9_game_not_found {Pos : Type} (eng : Engine Pos)
    (st : ServerState Pos) (ws : Nat) (gid mv : String)
    (h : st gid = none) :
    handleJoin st ws gid = (st, Reply.err "game not found") ∧
    handleMove eng st ws gid mv = (st, Reply.err "game not found") := by
  constructor
  · simp only [handleJoin, h]
  · simp only [handleMove, h]

/-- Witness for C9 at the empty registry and the concrete id g. -/
theorem C9_game_not_found_witness :
    handleJoin (@emptyState TestPos) 0 "g" =
      (emptyState, Reply.err "game not found") ∧
    handleMove testEngine emptyState 0 "g" "ok" =
      (emptyState, Reply.err "game not found") :=
  C9_game_not_found testEngine emptyState 0 "g" "ok" rfl

/-- A position drawn by the seventy-five-move rule, a terminal draw the
engine reports with a method other than InsufficientMaterial (notnil/chess
applies this draw automatically). -/
def drawnPos : TestPos :=
  ⟨Color.black, Outcome.draw, Method.seventyFiveMoveRule, 1⟩

/-- C5 counterexample: at a position whose engine outcome is terminal (a
draw by the seventy-five-move rule), the broadcast status computed by
main.go lines 176 to 185 is the string ongoing, not one of checkmate,
stalemate or draw, because the if chain checks only the methods Checkmate,
Stalemate and InsufficientMaterial and has no final else. -/
theorem C5_terminal_status_cex :
    testEngine.outcome drawnPos ≠ Outcome.noOutcome ∧
    statusOf testEngine drawnPos = "ongoing" ∧
    statusOf testEngine drawnPos ≠ "checkmate" ∧
    statusOf testEngine drawnPos ≠ "stalemate" ∧
    statusOf testEngine drawnPos ≠ "draw" := by decide

/-- C5 amended: when the engine reports a non-ongoing outcome, the broadcast
status is checkmate for the method Checkmate, stalemate for Stalemate and
draw for InsufficientMaterial, but it stays ongoing for every other terminal
classification (seventy-five-move rule, fivefold repetition, and the other
methods), so not every terminal draw is reported as draw. -/
theorem C5_terminal_status_amended {Pos : Type} (eng : Engine Pos) (p : Pos)
    (h : eng.outcome p ≠ Outcome.noOutcome) :
    (eng.method p = Method.checkmate → statusOf eng p = "checkmate") ∧
    (eng.method p = Method.stalemate → statusOf eng p = "stalemate") ∧
    (eng.method p = Method.insufficientMaterial → statusOf eng p = "draw") ∧
    (eng.method p ≠ Method.checkmate → eng.method p ≠ Method.stalemate →
      eng.method p ≠ Method.insufficientMaterial →
      statusOf eng p = "ongoing") := by
  refine ⟨fun h1 => by simp [statusOf, h, h1],
    fun h1 => by simp [statusOf, h, h1],
    fun h1 => by simp [statusOf, h, h1],
    fun h1 h2 h3 => by simp [statusOf, h, h1, h2, h3]⟩

/-- Witness for the amended C5 at the concrete drawn position. -/
theorem C5_terminal_status_amended_witness :
    (testEngine.method drawnPos = Method.checkmate →
      statusOf testEngine drawnPos = "checkmate") ∧
    (testEngine.method drawnPos = Method.stalemate →
      statusOf testEngine drawnPos = "stalemate") ∧
    (testEngine.method drawnPos = Method.insufficientMaterial →
      statusOf testEngine drawnPos = "draw") ∧
    (testEngine.method drawnPos ≠ Method.checkmate →
      testEngine.method drawnPos ≠ Method.stalemate →
      testEngine.method drawnPos ≠ Method.insufficientMaterial →
      statusOf testEngine drawnPos = "ongoing") :=
  C5_terminal_status_amended testEngine drawnPos (by decide)

/-- One synchronization-relevant event of a handler body: acquiring or
releasing the registry-wide gamesMutex (main.go line 35) or a session's own
mutex (the embedded sync.Mutex of Game, line 29), reading session fields,
mutating session fields (appending to Players, or MoveStr updating the
position), or writing a JSON message to a connection. -/
inductive LockEvent where
  | acqRegistry
  | relRegistry
  | acqSession
  | relSession
  | readSession
  | mutateSession
  | writeConn
deriving DecidableEq

/-- Ordered events of the successful join path of main.go: line 96 Lock of
gamesMutex, line 99 length check (session read), line 108 first player's
color (session read), line 110 append to Players (session mutation), line
111 Unlock of gamesMutex, line 112 WriteJSON to the joiner, then
broadcastGameState: line 173 session Lock, lines 176 to 189 snapshot reads,
line 193 WriteJSON to each player, line 174 session Unlock. -/
def joinLockTrace : List LockEvent :=
  [LockEvent.acqRegistry, LockEvent.readSession, LockEvent.readSession,
   LockEvent.mutateSession, LockEvent.relRegistry, LockEvent.writeConn,
   LockEvent.acqSession, LockEvent.readSession, LockEvent.writeConn,
   LockEvent.relSession]

/-- Ordered events of the accepted move path of main.go: line 131 Lock of
gamesMutex, line 134 turn check (session read), line 144 MoveStr (session
mutation), then broadcastGameState at line 155 (session Lock, snapshot
reads, connection writes, session Unlock), and only then line 156 Unlock of
gamesMutex. -/
def moveLockTrace : List LockEvent :=
  [LockEvent.acqRegistry, LockEvent.readSession, LockEvent.mutateSession,
   LockEvent.acqSession, LockEvent.readSession, LockEvent.writeConn,
   LockEvent.relSession, LockEvent.relRegistry]

/-- Whether a non-reentrant lock with the given acquire and release events
is held after a list of events has run. -/
def heldAfter (acq rel : LockEvent) (tr : List LockEvent) : Bool :=
  tr.foldl (fun b e => if e = acq then true else if e = rel then false else b)
    false

/-- Whether the registry-wide lock is held when the event at index i runs. -/
def registryHeldAt (tr : List LockEvent) (i : Nat) : Bool :=
  heldAfter LockEvent.acqRegistry LockEvent.relRegistry (tr.take i)

/-- Whether the session's own lock is held when the event at index i runs. -/
def sessionHeldAt (tr : List LockEvent) (i : Nat) : Bool :=
  heldAfter LockEvent.acqSession LockEvent.relSession (tr.take i)

/-- The first half of the claimed lock discipline: the registry-wide lock is
never held while a session mutation runs. -/
def RegistryNeverAcrossMutation (tr : List LockEvent) : Prop :=
  ∀ i, tr[i]? = some LockEvent.mutateSession → registryHeldAt tr i = false

/-- The second half of the claimed lock discipline: every session mutation
and every broadcast write runs under the session's own lock. -/
def BodyUnderSessionLock (tr : List LockEvent) : Prop :=
  ∀ i, (tr[i]? = some LockEvent.mutateSession ∨
      tr[i]? = some LockEvent.writeConn) →
    sessionHeldAt tr i = true

/-- C6 counterexample: in the join path the append to Players (index 3) and
in the move path the MoveStr mutation (index 2) both run while the
registry-wide gamesMutex is held and the session's own lock is not, so the
registry lock is held across session mutations and neither Join nor
ApplyMove runs its body under the session's exclusive lock. -/
theorem C6_lock_discipline_cex :
    joinLockTrace[3]? = some LockEvent.mutateSession ∧
    registryHeldAt joinLockTrace 3 = true ∧
    sessionHeldAt joinLockTrace 3 = false ∧
    moveLockTrace[2]? = some LockEvent.mutateSession ∧
    registryHeldAt moveLockTrace 2 = true ∧
    sessionHeldAt moveLockTrace 2 = false ∧
    ¬RegistryNeverAcrossMutation joinLockTrace ∧
    ¬RegistryNeverAcrossMutation moveLockTrace ∧
    ¬BodyUnderSessionLock joinLockTrace ∧
    ¬BodyUnderSessionLock moveLockTrace :=
  ⟨by decide, by decide, by decide, by decide, by decide, by decide,
   fun hc => absurd (hc 3 (by decide)) (by decide),
   fun hc => absurd (hc 2 (by decide)) (by decide),
   fun hc => absurd (hc 3 (Or.inl (by decide))) (by decide),
   fun hc => absurd (hc 2 (Or.inl (by decide))) (by decide)⟩

/-- C6 amended: the actual discipline of main.go is the reverse of the
claimed one.  In Join the participant append (index 3) runs under the
registry-wide lock and outside the session lock, and the registry lock is
released (index 4) before the broadcast acquires the session lock (index
6); in ApplyMove the position mutation (index 2) and the broadcast write
(index 5) run under the registry-wide lock, which is released only after
the broadcast completes (index 7); the session's own lock is taken only
inside the broadcast. -/
theorem C6_lock_discipline_amended :
    (joinLockTrace[3]? = some LockEvent.mutateSession ∧
     registryHeldAt joinLockTrace 3 = true ∧
     sessionHeldAt joinLockTrace 3 = false) ∧
    (joinLockTrace[4]? = some LockEvent.relRegistry ∧
     joinLockTrace[6]? = some LockEvent.acqSession ∧
     registryHeldAt joinLockTrace 6 = false ∧
     sessionHeldAt joinLockTrace 8 = true) ∧
    (moveLockTrace[2]? = some LockEvent.mutateSession ∧
     registryHeldAt moveLockTrace 2 = true ∧
     sessionHeldAt moveLockTrace 2 = false) ∧
    (moveLockTrace[5]? = some LockEvent.writeConn ∧
     registryHeldAt moveLockTrace 5 = true ∧
     sessionHeldAt moveLockTrace 5 = true) ∧
    moveLockTrace[7]? = some LockEvent.relRegistry := by decide

/-- The reachable state after White (connection 0) creates game g, Black
(connection 1) joins, and White plays the move draw, ending the game with a
terminal drawn outcome by the seventy-five-move rule. -/
def drawnState : ServerState TestPos :=
  step testEngine st2 (Act.move 0 "g" "draw")

theorem drawnState_reachable : Reachable testEngine drawnState :=
  Reachable.next st2_reachable trivial

/-- C7 counterexample: the session of the reachable state drawnState holds
a position with a terminal outcome, yet the subsequent move action by the
side to move is accepted, the position changes, and a broadcast is sent,
because the move handler of main.go lines 126 to 164 checks only the turn
and the engine's legality verdict, never the outcome, and the engine (per
the Rules Engine Adapter interface of spec section 6) rejects moves only
for position legality, which a terminal draw does not remove. -/
theorem C7_no_moves_after_finish_cex :
    drawnState "g" =
      some ⟨⟨Color.black, Outcome.draw, Method.seventyFiveMoveRule, 1⟩,
        [⟨0, Color.white⟩, ⟨1, Color.black⟩]⟩ ∧
    testEngine.outcome ⟨Color.black, Outcome.draw, Method.seventyFiveMoveRule, 1⟩ ≠
      Outcome.noOutcome ∧
    (handleMove testEngine drawnState 1 "g" "ok").1 "g" =
      some ⟨⟨Color.white, Outcome.draw, Method.seventyFiveMoveRule, 2⟩,
        [⟨0, Color.white⟩, ⟨1, Color.black⟩]⟩ ∧
    (handleMove testEngine drawnState 1 "g" "ok").2 =
      Reply.broadcast "ongoing" "fen" := by decide

/-- C7 amended: after checkmate or stalemate no move is ever accepted and
the registry is left exactly unchanged, because the side to move has no
legal move (the engine rejects every move of such a position) and any other
connection fails the turn check; but the server itself performs no outcome
check, so a terminal position whose moves the engine still accepts (a
position drawn by an automatic rule) does admit further accepted moves, as
the counterexample shows. -/
theorem C7_no_moves_after_mate {Pos : Type} (eng : Engine Pos)
    (st : ServerState Pos) (ws : Nat) (gid mv : String) (g : Game Pos)
    (hg : st gid = some g)
    (hrej : ∀ m, ∃ reason, eng.moveStr g.game m = Except.error reason) :
    (handleMove eng st ws gid mv).1 = st ∧
    ∀ s f, (handleMove eng st ws gid mv).2 ≠ Reply.broadcast s f := by
  by_cases hturn : eng.turn g.game ≠ getPlayerColor ws g
  · constructor
    · simp [handleMove, hg, if_pos hturn]
    · intro s f hb
      simp only [handleMove, hg, if_pos hturn] at hb
      exact Reply.noConfusion hb
  · obtain ⟨reason, hr⟩ := hrej mv
    constructor
    · simp [handleMove, hg, if_neg hturn, hr]
    · intro s f hb
      simp only [handleMove, hg, if_neg hturn, hr] at hb
      exact Reply.noConfusion hb

/-- A session whose position is checkmated: Black to move with no legal
moves, White has won. -/
def mateSession : Game TestPos :=
  ⟨⟨Color.black, Outcome.whiteWon, Method.checkmate, 3⟩,
    [⟨0, Color.white⟩, ⟨1, Color.black⟩]⟩

/-- A registry holding the checkmated session under the key g. -/
def mateState : ServerState TestPos :=
  setGame emptyState "g" mateSession

/-- Witness for the amended C7: on the checkmated session no move action by
the mated player changes the registry or produces a broadcast. -/
theorem C7_no_moves_after_mate_witness :
    (handleMove testEngine mateState 1 "g" "ok").1 = mateState ∧
    ∀ s f, (handleMove testEngine mateState 1 "g" "ok").2 ≠
      Reply.broadcast s f :=
  C7_no_moves_after_mate testEngine mateState 1 "g" "ok" mateSession
    (by decide) (fun m => ⟨"invalid move", by simp [testEngine, mateSession]⟩)

/-- The reachable state after connection 0 creates game g with color White
and then joins its own game: the session holds two participants sharing
connection 0 (the join handler never compares connections, see C10). -/
def selfJoinState : ServerState TestPos :=
  step testEngine (step testEngine emptyState (Act.create 0 "g" true))
    (Act.join 0 "g")

theorem selfJoinState_reachable : Reachable testEngine selfJoinState :=
  Reachable.next (Reachable.next Reachable.init rfl) trivial

/-- C8 counterexample: in the reachable state selfJoinState the session g
holds two participants sharing connection 0; the cleanup for connection 0
removes only the first matching participant (the loop of main.go lines 208
to 214 breaks after the first hit), so afterwards the session is still
registered and still contains a participant whose connection is the closed
connection 0 - the connection was not removed from every session it belongs
to. -/
theorem C8_cleanup_cex :
    selfJoinState "g" =
      some ⟨⟨Color.white, Outcome.noOutcome, Method.noMethod, 0⟩,
        [⟨0, Color.white⟩, ⟨0, Color.black⟩]⟩ ∧
    removePlayer selfJoinState 0 "g" =
      some ⟨⟨Color.white, Outcome.noOutcome, Method.noMethod, 0⟩,
        [⟨0, Color.black⟩]⟩ ∧
    (⟨0, Color.black⟩ : Player).conn = 0 := by decide

theorem removeFirstMatch_of_no_match {ws : Nat} {l : List Player}
    (h : ∀ p ∈ l, p.conn ≠ ws) : removeFirstMatch ws l = l := by
  induction l with
  | nil => rfl
  | cons p ps ih =>
    simp only [removeFirstMatch]
    rw [if_neg (h p (List.mem_cons_self p ps)),
      ih fun q hq => h q (List.mem_cons_of_mem p hq)]

theorem removeFirstMatch_no_dup {ws : Nat} {l : List Player}
    (h : l.countP (fun p => p.conn == ws) ≤ 1) :
    ∀ p ∈ removeFirstMatch ws l, p.conn ≠ ws := by
  induction l with
  | nil => intro p hp; simp [removeFirstMatch] at hp
  | cons q ps ih =>
    intro p hp
    by_cases hq : q.conn = ws
    · rw [removeFirstMatch, if_pos hq] at hp
      have hcnt : (q :: ps).countP (fun p => p.conn == ws) =
          ps.countP (fun p => p.conn == ws) + 1 :=
        List.countP_cons_of_pos _ _ (by simpa using hq)
      have h0 : ps.countP (fun p => p.conn == ws) = 0 := by omega
      have hnone := List.countP_eq_zero.mp h0 p hp
      simpa using hnone
    · rw [removeFirstMatch, if_neg hq] at hp
      rcases List.mem_cons.mp hp with h1 | h1
      · subst h1; exact hq
      · have hcnt : (q :: ps).countP (fun p => p.conn == ws) =
            ps.countP (fun p => p.conn == ws) :=
          List.countP_cons_of_neg _ _ (by simpa using hq)
        exact ih (by omega) p h1

/-- C8 amended: the cleanup for a closed connection removes, from each
session, the first participant whose connection matches; a session whose
player list becomes empty is deleted from the registry and a session with a
remaining participant stays registered with exactly that list; when the
session held at most one matching participant the surviving list contains
no participant of the closed connection (a second participant sharing the
connection, reachable through self join, survives, see the counterexample);
and a nonempty session containing no matching participant is left exactly
as it was. -/
theorem C8_cleanup {Pos : Type} (st : ServerState Pos) (ws : Nat)
    (gid : String) (g : Game Pos) (hg : st gid = some g) :
    ((removeFirstMatch ws g.players).isEmpty = true →
      removePlayer st ws gid = none) ∧
    ((removeFirstMatch ws g.players).isEmpty = false →
      removePlayer st ws gid =
        some { g with players := removeFirstMatch ws g.players }) ∧
    (g.players.countP (fun p => p.conn == ws) ≤ 1 →
      ∀ p ∈ removeFirstMatch ws g.players, p.conn ≠ ws) ∧
    (g.players ≠ [] → (∀ p ∈ g.players, p.conn ≠ ws) →
      removePlayer st ws gid = st gid) := by
  refine ⟨?_, ?_, ?_, ?_⟩
  · intro he
    simp [removePlayer, hg, he]
  · intro he
    simp [removePlayer, hg, he]
  · exact removeFirstMatch_no_dup
  · intro hne hnom
    have h1 : removeFirstMatch ws g.players = g.players :=
      removeFirstMatch_of_no_match hnom
    have h2 : g.players.isEmpty = false := by
      cases hp : g.players with
      | nil => exact absurd hp hne
      | cons a l => rfl
    simp [removePlayer, hg, h1, h2]

/-- Witness for the amended C8 at the concrete self-joined session. -/
theorem C8_cleanup_witness :
    ((removeFirstMatch 0 (⟨⟨Color.white, Outcome.noOutcome, Method.noMethod,
        0⟩, [⟨0, Color.white⟩, ⟨0, Color.black⟩]⟩ :
        Game TestPos).players).isEmpty = true →
      removePlayer selfJoinState 0 "g" = none) ∧
    ((removeFirstMatch 0 (⟨⟨Color.white, Outcome.noOutcome, Method.noMethod,
        0⟩, [⟨0, Color.white⟩, ⟨0, Color.black⟩]⟩ :
        Game TestPos).players).isEmpty = false →
      removePlayer selfJoinState 0 "g" =
        some { (⟨⟨Color.white, Outcome.noOutcome, Method.noMethod, 0⟩,
            [⟨0, Color.white⟩, ⟨0, Color.black⟩]⟩ : Game TestPos) with
          players := removeFirstMatch 0 (⟨⟨Color.white, Outcome.noOutcome,
            Method.noMethod, 0⟩, [⟨0, Color.white⟩, ⟨0, Color.black⟩]⟩ :
            Game TestPos).players }) ∧
    ((⟨⟨Color.white, Outcome.noOutcome, Method.noMethod, 0⟩,
        [⟨0, Color.white⟩, ⟨0, Color.black⟩]⟩ :
        Game TestPos).players.countP (fun p => p.conn == 0) ≤ 1 →
      ∀ p ∈ removeFirstMatch 0 (⟨⟨Color.white, Outcome.noOutcome,
        Method.noMethod, 0⟩, [⟨0, Color.white⟩, ⟨0, Color.black⟩]⟩ :
        Game TestPos).players, p.conn ≠ 0) ∧
    ((⟨⟨Color.white, Outcome.noOutcome, Method.noMethod, 0⟩,
        [⟨0, Color.white⟩, ⟨0, Color.black⟩]⟩ :
        Game TestPos).players ≠ [] →
      (∀ p ∈ (⟨⟨Color.white, Outcome.noOutcome, Method.noMethod, 0⟩,
        [⟨0, Color.white⟩, ⟨0, Color.black⟩]⟩ :
        Game TestPos).players, p.conn ≠ 0) →
      removePlayer selfJoinState 0 "g" = selfJoinState "g") :=
  C8_cleanup selfJoinState 0 "g" _ (by decide)

end MultiplayerChess
